import Mathlib

/-!
Verification of the envctl session-aware load/unload/switch controller.

The development shallowly embeds the TypeScript sources `src/env-manager.ts`
and `src/storage.ts`.  Profile JSON storage is modelled as a lookup function
`String → Option Profile`; the per-session backup file is modelled as
`Option (List String)` (absent file, or the file's lines — every write the
tool performs appends whole `"..." ++ "\n"` lines, so for newline-free
payloads the line list determines the byte content exactly, via
`fileContent`).  The POSIX shell fragments emitted by the generators are
embedded as an inductive command type `ShCmd` whose big-step effect on a
shell state (environment plus backup file) is `execCmd`; each constructor
corresponds to one literal fragment pushed by the source.
-/

namespace Envctl

/-- JS `String.prototype.startsWith`, modelled on character lists. -/
def strStartsWith (s p : String) : Bool :=
  p.toList.isPrefixOf s.toList

/-- JS `String.prototype.endsWith`, modelled on character lists. -/
def strEndsWith (s p : String) : Bool :=
  p.toList.isSuffixOf s.toList

/-- JS `String.prototype.trim` (ASCII whitespace, which covers every
whitespace character these strings can contain). -/
def strTrim (s : String) : String :=
  ⟨((s.toList.dropWhile Char.isWhitespace).reverse.dropWhile Char.isWhitespace).reverse⟩

/-- Remove the first `n` characters of `s`.  Used to model
`String.prototype.replace(m, "")` in the source positions where the source
has already checked that `m` is a leading occurrence. -/
def strDropChars (s : String) (n : Nat) : String :=
  ⟨s.toList.drop n⟩

/-- JS `String.prototype.replace(pat, repl)` (string pattern: replace the
first occurrence only), on character lists. -/
def listReplaceFirst (pat repl : List Char) : List Char → List Char
  | [] => if pat.isEmpty then repl else []
  | c :: rest =>
    if pat.isPrefixOf (c :: rest) then repl ++ (c :: rest).drop pat.length
    else c :: listReplaceFirst pat repl rest

/-- JS `String.prototype.replace(pat, repl)` with a string pattern. -/
def strReplaceFirst (s pat repl : String) : String :=
  ⟨listReplaceFirst pat.toList repl.toList s.toList⟩

/-- A stored profile (`src/types.ts`): name and variable map.  The map is a
JS object, i.e. an insertion-ordered association list with unique keys;
`createdAt` and `updatedAt` play no role in any generated script and are
omitted. -/
structure Profile where
  name : String
  vars : List (String × String)
deriving DecidableEq, Repr

/-- The profile-marker line text `# envctl-profile:` used by both generators
(`src/env-manager.ts`) and the backup reader (`src/storage.ts`). -/
def markerText : String := "# envctl-profile:"

/-- The marker line written by `echo "# envctl-profile:NAME" > backupFile`. -/
def markerLine (profileName : String) : String := markerText ++ profileName

/-- One emitted shell-script fragment.  Constructors correspond one-to-one
to the command strings pushed in `src/env-manager.ts`:
`writeMarker n` is the line `echo "# envctl-profile:n" > backupFile`;
`condBackup k` is `[ -n "(k+x-form)" ] && echo "k=(dollar k)" >> backupFile`;
`exportVar k v` is `export k="v"`;
`restoreOrUnset k` is the five-line block
`if grep -q "(caret k)=" backupFile; then export k="(grep-cut value)"; else unset k; fi`;
`removeBackup` is `rm -f backupFile`. -/
inductive ShCmd where
  | writeMarker (profileName : String)
  | condBackup (key : String)
  | exportVar (key value : String)
  | restoreOrUnset (key : String)
  | removeBackup
deriving DecidableEq, Repr

/-- State of the calling shell: its environment (a key is `none` when unset,
`some v` when set to `v` — `some ""` is set-but-empty, which the emitted
test `[ -n "(k+x-form)" ]` treats as set) and the session backup file
(`none` when absent, otherwise its lines). -/
structure ShellState where
  env : String → Option String
  backup : Option (List String)

/-- Value part of a backup line: `cut -d'=' -f2-`, everything after the
first `=`.  Only applied to lines that `grep` matched on a `k=` prefix, so
the line always contains `=`. -/
def lineValue (l : String) : String :=
  ⟨(l.toList.dropWhile (fun c => c ≠ '=')).drop 1⟩

/-- Effect of `grep "(caret k)=" backupFile | cut -d'=' -f2-` on the backup
lines: the value of the first line starting with `k=`.  (All reachable
backup files contain at most one such line, so taking the first match is
exact.) -/
def backupLookup (lines : List String) (key : String) : Option String :=
  (lines.find? (fun l => strStartsWith l (key ++ "="))).map lineValue

/-- Big-step effect of one emitted fragment on the shell state. -/
def execCmd (st : ShellState) : ShCmd → ShellState
  | .writeMarker profileName => { st with backup := some [markerLine profileName] }
  | .condBackup key =>
    match st.env key with
    | some v => { st with backup := some ((st.backup.getD []) ++ [key ++ "=" ++ v]) }
    | none => st
  | .exportVar key v => { st with env := fun k => if k = key then some v else st.env k }
  | .restoreOrUnset key =>
    match st.backup with
    | none => { st with env := fun k => if k = key then none else st.env k }
    | some lines =>
      match backupLookup lines key with
      | some v => { st with env := fun k => if k = key then some v else st.env k }
      | none => { st with env := fun k => if k = key then none else st.env k }
  | .removeBackup => { st with backup := none }

/-- Evaluate an emitted script (a list of fragments) left to right. -/
def execList (cmds : List ShCmd) (st : ShellState) : ShellState :=
  cmds.foldl execCmd st

/-- Byte content of a backup file with the given lines: every write is an
`echo` of one line, so the file is the lines each followed by a newline. -/
def fileContent (lines : List String) : String :=
  String.join (lines.map (fun l => l ++ "\n"))

/-- `Storage.getCurrentlyLoadedProfile` (`src/storage.ts` lines 144-164)
restricted to the current session's backup file: `none` when the file is
absent; the trimmed marker payload when the first line carries the marker;
the string `"unknown"` otherwise. -/
def getCurrentlyLoadedProfile (backup : Option (List String)) : Option String :=
  match backup with
  | none => none
  | some lines =>
    let firstLine := strTrim (lines.headD "")
    if strStartsWith firstLine markerText then
      some (strTrim (strDropChars firstLine markerText.length))
    else
      some "unknown"

/-- `EnvManager.generateLoadCommands` (`src/env-manager.ts` lines 158-175):
marker write, then one conditional backup append per key, then one export
per variable, in the variable map's own order. -/
def generateLoadCommands (profileName : String) (vars : List (String × String)) :
    List ShCmd :=
  ShCmd.writeMarker profileName ::
    (vars.map (fun kv => ShCmd.condBackup kv.1) ++
      vars.map (fun kv => ShCmd.exportVar kv.1 kv.2))

/-- `EnvManager.reloadCurrentProfile` (`src/env-manager.ts` lines 123-148):
restore-or-unset each key from the existing backup, then a fresh marker,
fresh conditional backups, and the exports. -/
def reloadCurrentProfile (profileName : String) (vars : List (String × String)) :
    List ShCmd :=
  vars.map (fun kv => ShCmd.restoreOrUnset kv.1) ++
    (ShCmd.writeMarker profileName ::
      (vars.map (fun kv => ShCmd.condBackup kv.1) ++
        vars.map (fun kv => ShCmd.exportVar kv.1 kv.2)))

/-- `EnvManager.loadProfile` (`src/env-manager.ts` lines 102-121).  The
stored profiles are the lookup function `profiles`; `backup` is the current
session's backup file.  JS truthiness of the currently-loaded name is
modelled exactly: an empty-string name is falsy, so it neither reloads nor
blocks. -/
def loadProfile (profiles : String → Option Profile) (backup : Option (List String))
    (profileName : String) : Except String (List ShCmd) :=
  match profiles profileName with
  | none => .error ("Profile '" ++ profileName ++ "' does not exist")
  | some profile =>
    match getCurrentlyLoadedProfile backup with
    | some cur =>
      if cur = profileName then
        .ok (reloadCurrentProfile profileName profile.vars)
      else if cur.isEmpty then
        .ok (generateLoadCommands profileName profile.vars)
      else
        .error ("Profile '" ++ cur ++ "' is already loaded. Use 'envctl switch " ++
          profileName ++ "' to switch profiles.")
    | none => .ok (generateLoadCommands profileName profile.vars)

/-- `EnvManager.unloadProfile` (`src/env-manager.ts` lines 177-211).
Returns the emitted script together with the reported profile name. -/
def unloadProfile (profiles : String → Option Profile) (backup : Option (List String)) :
    Except String (List ShCmd × String) :=
  match getCurrentlyLoadedProfile backup with
  | none => .error "No profile is currently loaded"
  | some cur =>
    if cur.isEmpty then .error "No profile is currently loaded"
    else if cur = "unknown" then .ok ([ShCmd.removeBackup], "unknown")
    else
      match profiles cur with
      | none => .error ("Profile '" ++ cur ++ "' not found")
      | some profile =>
        .ok (profile.vars.map (fun kv => ShCmd.restoreOrUnset kv.1) ++
          [ShCmd.removeBackup], cur)

/-- `EnvManager.deleteProfile` (`src/env-manager.ts` lines 345-355).  Only
the current session's backup file is consulted; on success the stored
entity is removed. -/
def deleteProfile (profiles : String → Option Profile) (backup : Option (List String))
    (name : String) : Except String (String → Option Profile) :=
  if getCurrentlyLoadedProfile backup = some name then
    .error ("Cannot delete profile '" ++ name ++ "' while it is loaded. Unload it first.")
  else
    match profiles name with
    | none => .error ("Profile '" ++ name ++ "' does not exist")
    | some _ => .ok (fun k => if k = name then none else profiles k)

/-- Keys the profile-storage collaborator accepts: identifier characters. -/
def isIdentChar (c : Char) : Bool := c.isAlphanum || c = '_'

/-- An identifier-like variable key: nonempty, identifier characters only. -/
def isIdentKey (s : String) : Bool :=
  !s.isEmpty && s.toList.all isIdentChar

/-- The backup lines appended by the `condBackup` fragments of a load: one
`k=v` line per profile key `k` that is set to `v` in the environment the
script runs in, in profile order. -/
def backupAppends (E : String → Option String) (vars : List (String × String)) :
    List String :=
  vars.filterMap (fun kv => (E kv.1).map (fun v => kv.1 ++ "=" ++ v))

/-- The terminal-related environment the session id is derived from:
`TERM_PROGRAM`, `SSH_TTY`, `TERM` and `SHLVL` (`none` = unset). -/
structure SessEnv where
  termProgram : Option String
  sshTty : Option String
  term : Option String
  shlvl : Option String
deriving DecidableEq, Repr

/-- Set to a nonempty value: this is both JS truthiness of `process.env.X`
(`undefined` and `""` are falsy) and the shell test `[ -n "(X-form)" ]`
(false when unset or empty). -/
def envSet : Option String → Bool
  | none => false
  | some s => !s.isEmpty

/-- Shell-level component with default: both `process.env.SHLVL || '1'`
(JS `||` takes the default for `undefined` and for `""`) and the shell
expansion `(SHLVL:-1-form)` (default when unset or empty). -/
def shlvlOrDefault (e : SessEnv) : String :=
  match e.shlvl with
  | some s => if s.isEmpty then "1" else s
  | none => "1"

/-- JS `String.prototype.split(sep)` for a one-character separator,
structurally on character lists (accumulating the current field). -/
def splitCharAux (sep : Char) : List Char → List Char → List String
  | [], acc => [⟨acc.reverse⟩]
  | c :: rest, acc =>
    if c = sep then ⟨acc.reverse⟩ :: splitCharAux sep rest []
    else splitCharAux sep rest (c :: acc)

/-- JS `s.split(sep)` with a one-character separator. -/
def strSplitChar (s : String) (sep : Char) : List String :=
  splitCharAux sep s.toList []

/-- First dash-separated component: both JS `s.split('-')[0]` and the shell
pipeline `echo s | cut -d'-' -f1` (for a value without whitespace or glob
characters, which the agreement theorem assumes). -/
def headDash (s : String) : String :=
  (strSplitChar s '-').headD ""

/-- `Storage.getSessionId` (`src/storage.ts` lines 19-49): the Node-side
session fingerprint `ppid-shlvl(-tag)` with tag priority `TERM_PROGRAM`,
then `SSH_TTY` as `ssh`, then the first dash-component of `TERM`, then
`dumb` when the shell level is `2`, else no tag. -/
def getSessionId (ppid : Nat) (e : SessEnv) : String :=
  let shlvl := shlvlOrDefault e
  let terminalContext :=
    if envSet e.termProgram then "-" ++ (e.termProgram.getD "")
    else if envSet e.sshTty then "-ssh"
    else if envSet e.term then "-" ++ headDash (e.term.getD "")
    else if shlvl = "2" then "-dumb"
    else ""
  toString ppid ++ "-" ++ shlvl ++ terminalContext

/-- `Storage.sessionBackupFilePath` (`src/storage.ts` lines 46-49):
`path.join(configDir, backup-id.env)` with
`configDir = path.join(homedir, '.envctl')`; `path.join` of these
slash-free segments is slash concatenation. -/
def sessionBackupFilePath (home : String) (ppid : Nat) (e : SessEnv) : String :=
  home ++ "/.envctl/" ++ ("backup-" ++ getSessionId ppid e ++ ".env")

/-- `EnvManager.getSessionBackupPath` (`src/env-manager.ts` lines 150-156):
the value of the embedded shell expression once the calling shell evaluates
it — each branch expands `HOME`, the shell pid, the defaulted `SHLVL` and
the chosen terminal tag literally (the agreement theorem assumes the
expanded values contain no characters the shell would rewrite). -/
def getSessionBackupPathSh (home : String) (pid : Nat) (e : SessEnv) : String :=
  let shlvl := shlvlOrDefault e
  if envSet e.termProgram then
    home ++ "/.envctl/backup-" ++ toString pid ++ "-" ++ shlvl ++ "-" ++
      (e.termProgram.getD "") ++ ".env"
  else if envSet e.sshTty then
    home ++ "/.envctl/backup-" ++ toString pid ++ "-" ++ shlvl ++ "-ssh.env"
  else if envSet e.term then
    home ++ "/.envctl/backup-" ++ toString pid ++ "-" ++ shlvl ++ "-" ++
      headDash (e.term.getD "") ++ ".env"
  else if shlvl = "2" then
    home ++ "/.envctl/backup-" ++ toString pid ++ "-" ++ shlvl ++ "-dumb.env"
  else
    home ++ "/.envctl/backup-" ++ toString pid ++ "-" ++ shlvl ++ ".env"

/-- A value the shell passes through literally: no whitespace, quoting,
expansion or glob characters.  Terminal identifiers in practice satisfy
this. -/
def shellLiteralValue (s : String) : Bool :=
  s.toList.all (fun c =>
    c.isAlphanum || c = '-' || c = '_' || c = '.' || c = '/' || c = ':' || c = '@')

/-- Numeric value of a nonempty digit prefix, `none` when there is none. -/
def digitsPrefixVal (cs : List Char) : Option Nat :=
  let ds := cs.takeWhile Char.isDigit
  if ds.isEmpty then none
  else some (ds.foldl (fun a c => a * 10 + (c.toNat - '0'.toNat)) 0)

/-- JS `parseInt(s, 10)`: skip leading whitespace, optional sign, then the
longest digit prefix; `none` models `NaN`. -/
def jsParseInt (s : String) : Option Int :=
  let cs := s.toList.dropWhile Char.isWhitespace
  match cs with
  | '-' :: rest => (digitsPrefixVal rest).map (fun n => -(n : Int))
  | '+' :: rest => (digitsPrefixVal rest).map (fun n => (n : Int))
  | _ => (digitsPrefixVal cs).map (fun n => (n : Int))

/-- `Storage.isSessionActive` (`src/storage.ts` lines 51-66): parse the pid
component of the session id; an unparseable pid is reported inactive, and
otherwise the `kill -0` zero-signal probe `alive` decides. -/
def isSessionActive (alive : Int → Bool) (sessionId : String) : Bool :=
  match jsParseInt ((strSplitChar sessionId '-').headD "") with
  | none => false
  | some pid => alive pid

/-- Session id carried by a backup file name, as computed by
`file.replace('backup-', '').replace('.env', '')` in `src/storage.ts`. -/
def backupFileSessionId (fileName : String) : String :=
  strReplaceFirst (strReplaceFirst fileName "backup-" "") ".env" ""

/-- Grace window of `Storage.cleanupOrphanedBackups`: five minutes in
milliseconds. -/
def fiveMinutes : Int := 5 * 60 * 1000

/-- Per-file decision of `Storage.cleanupOrphanedBackups` (`src/storage.ts`
lines 68-103): `true` when the pass deletes the file.  `mtime` is the
file's modification time in milliseconds (`none` when `stat` throws), `now`
is `Date.now()`, `currentId` the current session id and `alive` the
zero-signal liveness probe. -/
def reaperRemoves (currentId : String) (alive : Int → Bool) (now : Int)
    (fileName : String) (mtime : Option Int) : Bool :=
  if strStartsWith fileName "backup-" && strEndsWith fileName ".env" then
    let sessionId := backupFileSessionId fileName
    if sessionId = currentId then false
    else
      match mtime with
      | none => false
      | some m =>
        if now - m < fiveMinutes then false
        else !(isSessionActive alive sessionId)
  else false

/-- One cleanup pass over a directory listing: the names of the files the
reaper deletes, each decided independently as in the source loop. -/
def cleanupOrphanedBackups (currentId : String) (alive : Int → Bool) (now : Int)
    (files : List (String × Option Int)) : List String :=
  (files.filter (fun f => reaperRemoves currentId alive now f.1 f.2)).map Prod.fst

/-! ### Basic string facts -/

theorem strStartsWith_iff (s p : String) :
    strStartsWith s p = true ↔ p.toList <+: s.toList := by
  simp [strStartsWith, List.isPrefixOf_iff_prefix]

theorem toList_append (s t : String) : (s ++ t).toList = s.toList ++ t.toList :=
  String.data_append s t

theorem toList_inj {s t : String} (h : s.toList = t.toList) : s = t := by
  cases s; cases t; exact congrArg String.mk h

theorem toList_ne_nil {s : String} (h : ¬ s.isEmpty = true) : s.toList ≠ [] := by
  intro hnil
  exact h ((String.isEmpty_iff s).mpr (toList_inj (t := "") hnil))

/-- A character of an identifier key is an identifier character. -/
theorem identKey_chars {k : String} (hk : isIdentKey k = true) :
    ∀ c ∈ k.toList, isIdentChar c = true := by
  have h := (Bool.and_eq_true _ _).mp hk
  simpa [List.all_eq_true] using h.2

theorem identKey_ne_nil {k : String} (hk : isIdentKey k = true) : k.toList ≠ [] := by
  have h := (Bool.and_eq_true _ _).mp hk
  exact toList_ne_nil (by simpa using h.1)

/-- A list ending in a delimiter occurring on neither side is a prefix of
another such list (arbitrarily extended) only when the two sides agree. -/
theorem append_delim_prefix_eq {d : Char} :
    ∀ (as bs cs : List Char), d ∉ as → d ∉ bs →
      (as ++ [d] <+: bs ++ [d] ++ cs) → as = bs := by
  intro as
  induction as with
  | nil =>
    intro bs cs _ hbs hp
    cases bs with
    | nil => rfl
    | cons b bs2 =>
      rw [List.nil_append] at hp
      have hdb : d = b := by
        have : (d :: []) <+: b :: (bs2 ++ [d] ++ cs) := by
          simpa [List.append_assoc] using hp
        exact (List.cons_prefix_cons.mp this).1
      exact absurd (hdb ▸ List.mem_cons_self b bs2) hbs
  | cons a as2 ih =>
    intro bs cs has hbs hp
    cases bs with
    | nil =>
      have had : a = d := by
        have : a :: (as2 ++ [d]) <+: d :: cs := by
          simpa using hp
        exact (List.cons_prefix_cons.mp this).1
      exact absurd (had ▸ List.mem_cons_self a as2) has
    | cons b bs2 =>
      have hstep : a = b ∧ (as2 ++ [d] <+: bs2 ++ [d] ++ cs) := by
        have : a :: (as2 ++ [d]) <+: b :: (bs2 ++ [d] ++ cs) := by
          simpa [List.append_assoc] using hp
        exact List.cons_prefix_cons.mp this
      have h2 := ih bs2 cs (fun hm => has (List.mem_cons_of_mem a hm))
        (fun hm => hbs (List.mem_cons_of_mem b hm)) hstep.2
      rw [hstep.1, h2]

theorem identKey_no_eq {k : String} (hk : isIdentKey k = true) : '=' ∉ k.toList := by
  intro hmem
  have := identKey_chars hk _ hmem
  simp [isIdentChar] at this

/-- For identifier keys, a backup line `k2=v` starts with `k=` exactly when
the keys agree. -/
theorem line_match_iff (k k2 v : String)
    (hk : isIdentKey k = true) (hk2 : isIdentKey k2 = true) :
    strStartsWith (k2 ++ "=" ++ v) (k ++ "=") = true ↔ k = k2 := by
  constructor
  · intro h
    rw [strStartsWith_iff, toList_append, toList_append, toList_append] at h
    have heq : ("=" : String).toList = ['='] := rfl
    rw [heq] at h
    exact toList_inj (append_delim_prefix_eq _ _ _ (identKey_no_eq hk) (identKey_no_eq hk2) h)
  · intro h
    subst h
    rw [strStartsWith_iff, toList_append, toList_append, toList_append]
    exact List.prefix_append _ _

/-- The marker line never matches the `grep` pattern of an identifier key. -/
theorem marker_no_key_match (nm k : String) (hk : isIdentKey k = true) :
    strStartsWith (markerLine nm) (k ++ "=") = false := by
  rw [Bool.eq_false_iff]
  intro h
  rw [strStartsWith_iff, toList_append] at h
  have hml : (markerLine nm).toList = '#' :: (" envctl-profile:".toList ++ nm.toList) := by
    rw [markerLine, toList_append]
    rfl
  rw [hml] at h
  cases hkl : k.toList with
  | nil => exact identKey_ne_nil hk hkl
  | cons c cs =>
    rw [hkl] at h
    have hc : c = '#' := (List.cons_prefix_cons.mp (by simpa using h)).1
    have hid : isIdentChar c = true := identKey_chars hk c (hkl ▸ List.mem_cons_self c cs)
    rw [hc] at hid
    simp [isIdentChar] at hid

theorem dropWhile_eq_self_of_head {p : Char → Bool} (l : List Char)
    (h : ∀ c, l.head? = some c → p c = false) : l.dropWhile p = l := by
  cases l with
  | nil => rfl
  | cons c cs => simp [List.dropWhile_cons, h c rfl]

/-- `strTrim` is the identity on a string whose first and last characters
are not whitespace. -/
theorem strTrim_eq_self {s : String}
    (h1 : ∀ c, s.toList.head? = some c → c.isWhitespace = false)
    (h2 : ∀ c, s.toList.getLast? = some c → c.isWhitespace = false) :
    strTrim s = s := by
  unfold strTrim
  rw [dropWhile_eq_self_of_head _ h1]
  rw [dropWhile_eq_self_of_head _ (by simpa [List.head?_reverse] using h2)]
  rw [List.reverse_reverse]
  exact toList_inj rfl

/-- `strTrim` fixes the marker line of a whitespace-free profile name. -/
theorem strTrim_markerLine (nm : String)
    (hnw : ∀ c ∈ nm.toList, c.isWhitespace = false) :
    strTrim (markerLine nm) = markerLine nm := by
  have hml : (markerLine nm).toList = markerText.toList ++ nm.toList := by
    rw [markerLine, toList_append]
  apply strTrim_eq_self
  · intro c hc
    rw [hml] at hc
    have : c = '#' := by
      have : (markerText.toList ++ nm.toList).head? = some '#' := rfl
      rw [this] at hc
      exact (Option.some_inj.mp hc).symm
    rw [this]
    rfl
  · intro c hc
    rw [hml] at hc
    cases hnl : nm.toList with
    | nil =>
      rw [hnl, List.append_nil] at hc
      have : c = ':' := by
        have hlast : markerText.toList.getLast? = some ':' := by decide
        rw [hlast] at hc
        exact (Option.some_inj.mp hc).symm
      rw [this]
      rfl
    | cons c0 cs0 =>
      rw [hnl] at hc
      rw [List.getLast?_append_of_ne_nil _ (by simp)] at hc
      exact hnw c (hnl ▸ List.mem_of_mem_getLast? hc)

theorem strTrim_eq_self_of_no_ws {s : String}
    (hnw : ∀ c ∈ s.toList, c.isWhitespace = false) : strTrim s = s := by
  apply strTrim_eq_self
  · exact fun c hc => hnw c (List.mem_of_mem_head? hc)
  · exact fun c hc => hnw c (List.mem_of_mem_getLast? hc)

/-- Reading the loaded-profile name back from a freshly written backup: the
marker parses back to the profile name. -/
theorem getCurrentlyLoadedProfile_marker (nm : String) (bl : List String)
    (hnw : ∀ c ∈ nm.toList, c.isWhitespace = false) :
    getCurrentlyLoadedProfile (some (markerLine nm :: bl)) = some nm := by
  have hstep : getCurrentlyLoadedProfile (some (markerLine nm :: bl))
      = (if strStartsWith (strTrim (markerLine nm)) markerText = true
         then some (strTrim (strDropChars (strTrim (markerLine nm)) markerText.length))
         else some "unknown") := rfl
  rw [hstep, strTrim_markerLine nm hnw]
  have hsw : strStartsWith (markerLine nm) markerText = true := by
    rw [strStartsWith_iff, markerLine, toList_append]
    exact List.prefix_append _ _
  rw [if_pos hsw]
  have hdrop : strDropChars (markerLine nm) markerText.length = nm := by
    unfold strDropChars
    rw [markerLine, toList_append]
    have hlen : markerText.length = markerText.toList.length := rfl
    rw [hlen, List.drop_left]
    exact toList_inj rfl
  rw [hdrop, strTrim_eq_self_of_no_ws hnw]

/-- Value part of a `k=v` line for an identifier key. -/
theorem lineValue_key (k v : String) (hk : isIdentKey k = true) :
    lineValue (k ++ "=" ++ v) = v := by
  unfold lineValue
  rw [toList_append, toList_append]
  have heq : ("=" : String).toList = ['='] := rfl
  rw [heq]
  have hdw : ∀ l : List Char, (∀ c ∈ l, c ≠ '=') →
      (l ++ '=' :: v.toList).dropWhile (fun c => c ≠ '=') = '=' :: v.toList := by
    intro l
    induction l with
    | nil => intro _; simp [List.dropWhile_cons]
    | cons c cs ih =>
      intro hall
      rw [List.cons_append, List.dropWhile_cons]
      rw [if_pos (by simp [hall c (List.mem_cons_self c cs)])]
      exact ih (fun c2 hc2 => hall c2 (List.mem_cons_of_mem c hc2))
  have hall : ∀ c ∈ k.toList, c ≠ '=' := by
    intro c hc hce
    exact identKey_no_eq hk (hce ▸ hc)
  rw [List.append_assoc, List.singleton_append, hdw k.toList hall]
  exact toList_inj rfl

/-! ### Script-evaluation facts -/

theorem execList_append (l1 l2 : List ShCmd) (st : ShellState) :
    execList (l1 ++ l2) st = execList l2 (execList l1 st) :=
  List.foldl_append _ _ _ _

theorem execList_cons (c : ShCmd) (l : List ShCmd) (st : ShellState) :
    execList (c :: l) st = execList l (execCmd st c) := rfl

/-- The conditional-backup phase leaves the environment alone and appends
exactly one `k=v` line per key set in that environment. -/
theorem exec_condBackups (vars : List (String × String)) :
    ∀ (st : ShellState) (lines : List String), st.backup = some lines →
      execList (vars.map (fun kv => ShCmd.condBackup kv.1)) st
        = ⟨st.env, some (lines ++ backupAppends st.env vars)⟩ := by
  induction vars with
  | nil =>
    intro st lines h
    cases st
    simp_all [execList, backupAppends]
  | cons kv rest ih =>
    intro st lines h
    rw [List.map_cons, execList_cons]
    cases hv : st.env kv.1 with
    | some v =>
      have hcmd : execCmd st (ShCmd.condBackup kv.1)
          = { st with backup := some (lines ++ [kv.1 ++ "=" ++ v]) } := by
        simp [execCmd, hv, h]
      rw [hcmd, ih _ _ rfl]
      simp [backupAppends, List.filterMap_cons, hv]
    | none =>
      have hcmd : execCmd st (ShCmd.condBackup kv.1) = st := by
        simp [execCmd, hv]
      rw [hcmd, ih _ _ h]
      simp [backupAppends, List.filterMap_cons, hv]

/-- The export phase leaves the backup file alone. -/
theorem exec_exports_backup (vars : List (String × String)) :
    ∀ st : ShellState,
      (execList (vars.map (fun kv => ShCmd.exportVar kv.1 kv.2)) st).backup
        = st.backup := by
  induction vars with
  | nil => intro st; rfl
  | cons kv rest ih =>
    intro st
    rw [List.map_cons, execList_cons, ih]
    rfl

theorem lookup_eq_none_of_not_mem_keys {β : Type} (a : String)
    (l : List (String × β)) (h : a ∉ l.map Prod.fst) : l.lookup a = none := by
  induction l with
  | nil => rfl
  | cons p rest ih =>
    obtain ⟨x, y⟩ := p
    have hax : a ≠ x := by
      intro he
      exact h (by rw [List.map_cons]; exact he ▸ List.mem_cons_self _ _)
    have hrest : a ∉ rest.map Prod.fst := by
      intro hm
      exact h (by rw [List.map_cons]; exact List.mem_cons_of_mem _ hm)
    have haxb : (a == x) = false := by simp [hax]
    simp [List.lookup, haxb, ih hrest]

/-- The export phase: for unique keys, each profile key ends at its profile
value and every other key keeps its previous value. -/
theorem exec_exports_env (vars : List (String × String)) :
    ∀ (st : ShellState) (k : String), (vars.map Prod.fst).Nodup →
      (execList (vars.map (fun kv => ShCmd.exportVar kv.1 kv.2)) st).env k
        = (vars.lookup k).or (st.env k) := by
  induction vars with
  | nil =>
    intro st k _
    simp [execList, List.lookup, Option.or]
  | cons kv rest ih =>
    intro st k hnd
    obtain ⟨k1, v1⟩ := kv
    rw [List.map_cons, execList_cons]
    have hnd2 : (rest.map Prod.fst).Nodup := (List.nodup_cons.mp (by simpa using hnd)).2
    have hmem : k1 ∉ rest.map Prod.fst := (List.nodup_cons.mp (by simpa using hnd)).1
    rw [ih _ k hnd2]
    by_cases hk : k = k1
    · subst hk
      rw [lookup_eq_none_of_not_mem_keys k rest hmem]
      simp [List.lookup, execCmd, Option.or]
    · have hbeq : (k == k1) = false := by simp [hk]
      simp [List.lookup, hbeq, execCmd, hk]

theorem execCmd_restore_backup (st : ShellState) (k : String) :
    (execCmd st (ShCmd.restoreOrUnset k)).backup = st.backup := by
  cases h : st.backup with
  | none => simp [execCmd, h]
  | some lines =>
    cases h2 : backupLookup lines k <;> simp [execCmd, h, h2]

theorem execCmd_restore_env (st : ShellState) (lines : List String) (k1 k : String)
    (h : st.backup = some lines) :
    (execCmd st (ShCmd.restoreOrUnset k1)).env k
      = if k = k1 then backupLookup lines k1 else st.env k := by
  cases h2 : backupLookup lines k1 <;> simp [execCmd, h, h2]

/-- The restore phase leaves the backup file alone. -/
theorem exec_restores_backup (vars : List (String × String)) :
    ∀ st : ShellState,
      (execList (vars.map (fun kv => ShCmd.restoreOrUnset kv.1)) st).backup
        = st.backup := by
  induction vars with
  | nil => intro st; rfl
  | cons kv rest ih =>
    intro st
    rw [List.map_cons, execList_cons, ih, execCmd_restore_backup]

/-- The restore phase sets every key of the profile to its backed-up
disposition and leaves every other key alone. -/
theorem exec_restores_env (vars : List (String × String)) :
    ∀ (st : ShellState) (lines : List String) (k : String), st.backup = some lines →
      (execList (vars.map (fun kv => ShCmd.restoreOrUnset kv.1)) st).env k
        = if k ∈ vars.map Prod.fst then backupLookup lines k else st.env k := by
  induction vars with
  | nil =>
    intro st lines k _
    simp [execList]
  | cons kv rest ih =>
    intro st lines k h
    rw [List.map_cons, execList_cons]
    have hback : (execCmd st (ShCmd.restoreOrUnset kv.1)).backup = some lines := by
      rw [execCmd_restore_backup, h]
    rw [ih _ lines k hback, execCmd_restore_env st lines kv.1 k h]
    by_cases hmem : k ∈ rest.map Prod.fst
    · simp [hmem]
    · by_cases hk : k = kv.1
      · subst hk
        simp [hmem]
      · simp [hmem, hk]

/-- Looking an identifier key up in a backup file skips the marker line. -/
theorem backupLookup_marker (nm : String) (bl : List String) (k : String)
    (hk : isIdentKey k = true) :
    backupLookup (markerLine nm :: bl) k = backupLookup bl k := by
  unfold backupLookup
  have h := marker_no_key_match nm k hk
  simp [List.find?, h]

/-- Looking an identifier key up among the appended backup lines yields
exactly the environment's disposition of that key. -/
theorem backupLookup_appends (E : String → Option String)
    (vars : List (String × String)) (k : String)
    (hk : isIdentKey k = true) (hvars : ∀ p ∈ vars, isIdentKey p.1 = true) :
    backupLookup (backupAppends E vars) k
      = if k ∈ vars.map Prod.fst then E k else none := by
  induction vars with
  | nil => simp [backupAppends, backupLookup]
  | cons kv rest ih =>
    obtain ⟨k1, v1⟩ := kv
    have hk1 : isIdentKey k1 = true := hvars _ (List.mem_cons_self _ _)
    have hrest : ∀ p ∈ rest, isIdentKey p.1 = true :=
      fun p hp => hvars p (List.mem_cons_of_mem _ hp)
    cases hv : E k1 with
    | none =>
      have happ : backupAppends E ((k1, v1) :: rest) = backupAppends E rest := by
        simp [backupAppends, List.filterMap_cons, hv]
      rw [happ, ih hrest]
      by_cases hkk : k = k1
      · subst hkk
        by_cases hmem : k ∈ rest.map Prod.fst <;> simp [hmem, hv]
      · exact (if_congr (by simp [List.mem_cons, hkk]) rfl rfl).symm
    | some w =>
      have happ : backupAppends E ((k1, v1) :: rest)
          = (k1 ++ "=" ++ w) :: backupAppends E rest := by
        simp [backupAppends, List.filterMap_cons, hv]
      rw [happ]
      by_cases hkk : k = k1
      · subst hkk
        have hmatch : strStartsWith (k ++ "=" ++ w) (k ++ "=") = true :=
          (line_match_iff k k w hk hk).mpr rfl
        unfold backupLookup
        simp [List.find?, hmatch, lineValue_key k w hk, hv]
      · have hmatch : strStartsWith (k1 ++ "=" ++ w) (k ++ "=") = false := by
          rw [Bool.eq_false_iff]
          intro hcontra
          exact hkk ((line_match_iff k k1 w hk hk1).mp hcontra)
        have hfind : backupLookup ((k1 ++ "=" ++ w) :: backupAppends E rest) k
            = backupLookup (backupAppends E rest) k := by
          unfold backupLookup
          simp [List.find?, hmatch]
        rw [hfind, ih hrest]
        exact (if_congr (by simp [List.mem_cons, hkk]) rfl rfl).symm

/-- State after evaluating a fresh-load script: the backup file holds the
marker line followed by the pre-load dispositions. -/
theorem load_backup (nm : String) (vars : List (String × String))
    (E : String → Option String) :
    (execList (generateLoadCommands nm vars) ⟨E, none⟩).backup
      = some (markerLine nm :: backupAppends E vars) := by
  unfold generateLoadCommands
  rw [execList_cons, execList_append]
  have hw : execCmd ⟨E, none⟩ (ShCmd.writeMarker nm)
      = ⟨E, some [markerLine nm]⟩ := rfl
  rw [hw, exec_condBackups vars _ [markerLine nm] rfl, exec_exports_backup]
  rfl

/-- State after evaluating a fresh-load script: profile keys carry their
profile values, everything else is untouched. -/
theorem load_env (nm : String) (vars : List (String × String))
    (E : String → Option String) (k : String)
    (hnd : (vars.map Prod.fst).Nodup) :
    (execList (generateLoadCommands nm vars) ⟨E, none⟩).env k
      = (vars.lookup k).or (E k) := by
  unfold generateLoadCommands
  rw [execList_cons, execList_append]
  have hw : execCmd ⟨E, none⟩ (ShCmd.writeMarker nm)
      = ⟨E, some [markerLine nm]⟩ := rfl
  rw [hw, exec_condBackups vars _ [markerLine nm] rfl, exec_exports_env vars _ k hnd]

/-- Pointwise-equal environments append the same backup lines. -/
theorem backupAppends_congr (f g : String → Option String)
    (vars : List (String × String)) (h : ∀ p ∈ vars, f p.1 = g p.1) :
    backupAppends f vars = backupAppends g vars := by
  induction vars with
  | nil => rfl
  | cons kv rest ih =>
    have h1 := h kv (List.mem_cons_self _ _)
    have h2 : ∀ p ∈ rest, f p.1 = g p.1 := fun p hp => h p (List.mem_cons_of_mem _ hp)
    simp only [backupAppends, List.filterMap_cons] at ih ⊢
    rw [h1, ih h2]

/-- After a fresh load, the restore phase of an unload or reload puts every
key back to its initial disposition. -/
theorem restores_after_load_env (nm : String) (vars : List (String × String))
    (E : String → Option String) (k : String)
    (hident : ∀ p ∈ vars, isIdentKey p.1 = true)
    (hnodup : (vars.map Prod.fst).Nodup) :
    (execList (vars.map (fun kv => ShCmd.restoreOrUnset kv.1))
        (execList (generateLoadCommands nm vars) ⟨E, none⟩)).env k = E k := by
  rw [exec_restores_env vars _ (markerLine nm :: backupAppends E vars) k
    (load_backup nm vars E)]
  by_cases hmem : k ∈ vars.map Prod.fst
  · rw [if_pos hmem]
    obtain ⟨p, hp, hpk⟩ := List.mem_map.mp hmem
    have hkid : isIdentKey k = true := hpk ▸ hident p hp
    rw [backupLookup_marker nm _ k hkid,
        backupLookup_appends E vars k hkid hident, if_pos hmem]
  · rw [if_neg hmem, load_env nm vars E k hnodup,
        lookup_eq_none_of_not_mem_keys k vars hmem]
    rfl

/-! ### The claims -/

/-- C1 (counterexample): the round-trip property fails as stated for the
profile literally named `unknown`: its fresh load succeeds, the subsequent
unload succeeds (reporting `unknown`) but emits only the backup removal, so
the key `X`, absent in the initial environment, is still exported
afterwards. -/
theorem round_trip_fails_for_unknown_name :
    loadProfile (fun n => if n = "unknown" then some ⟨"unknown", [("X", "1")]⟩ else none)
        none "unknown"
      = Except.ok (generateLoadCommands "unknown" [("X", "1")])
    ∧ unloadProfile (fun n => if n = "unknown" then some ⟨"unknown", [("X", "1")]⟩ else none)
        (execList (generateLoadCommands "unknown" [("X", "1")]) ⟨fun _ => none, none⟩).backup
      = Except.ok ([ShCmd.removeBackup], "unknown")
    ∧ (execList [ShCmd.removeBackup]
        (execList (generateLoadCommands "unknown" [("X", "1")]) ⟨fun _ => none, none⟩)).env "X"
      = some "1" := by
  refine ⟨rfl, rfl, by decide⟩

/-- C1 (amended): for every stored profile whose name is nonempty,
whitespace-free and different from the reserved string `unknown`, and whose
keys are distinct identifiers, evaluating the load script and then the
unload script returns every key of the environment (profile keys and all
others) to its initial disposition and removes the backup file.  The
conditions on the initial environment's values are those the claim states;
the name and key conditions are the well-formedness the profile storage
guarantees. -/
theorem round_trip_restores_env
    (profiles : String → Option Profile) (nm : String)
    (vars : List (String × String)) (E : String → Option String)
    (hprof : profiles nm = some ⟨nm, vars⟩)
    (hident : ∀ p ∈ vars, isIdentKey p.1 = true)
    (hnodup : (vars.map Prod.fst).Nodup)
    (hnw : ∀ c ∈ nm.toList, c.isWhitespace = false)
    (hne : nm.isEmpty = false)
    (hnu : nm ≠ "unknown")
    (hEval : ∀ p ∈ vars, ∀ v, E p.1 = some v → ('\n' ∉ v.toList ∧ '"' ∉ v.toList)) :
    loadProfile profiles none nm = Except.ok (generateLoadCommands nm vars)
    ∧ unloadProfile profiles
          (execList (generateLoadCommands nm vars) ⟨E, none⟩).backup
        = Except.ok
            (vars.map (fun kv => ShCmd.restoreOrUnset kv.1) ++ [ShCmd.removeBackup], nm)
    ∧ (∀ k,
        (execList (vars.map (fun kv => ShCmd.restoreOrUnset kv.1) ++ [ShCmd.removeBackup])
            (execList (generateLoadCommands nm vars) ⟨E, none⟩)).env k = E k)
    ∧ (execList (vars.map (fun kv => ShCmd.restoreOrUnset kv.1) ++ [ShCmd.removeBackup])
          (execList (generateLoadCommands nm vars) ⟨E, none⟩)).backup = none := by
  have hb : (execList (generateLoadCommands nm vars) ⟨E, none⟩).backup
      = some (markerLine nm :: backupAppends E vars) := load_backup nm vars E
  have hcur : getCurrentlyLoadedProfile
      (execList (generateLoadCommands nm vars) ⟨E, none⟩).backup = some nm := by
    rw [hb]
    exact getCurrentlyLoadedProfile_marker nm _ hnw
  refine ⟨?_, ?_, ?_, ?_⟩
  · simp [loadProfile, hprof, getCurrentlyLoadedProfile]
  · simp [unloadProfile, hcur, hne, hnu, hprof]
  · intro k
    rw [execList_append]
    have hrm : ∀ st : ShellState, (execList [ShCmd.removeBackup] st).env k = st.env k :=
      fun st => rfl
    rw [hrm]
    exact restores_after_load_env nm vars E k hident hnodup
  · rw [execList_append]
    rfl

/-- C1 (witness): the amended round trip at the spec's `dev` scenario. -/
theorem round_trip_restores_env_witness :
    ((fun n => if n = "dev"
        then some (⟨"dev", [("DATABASE_URL", "db://x"), ("DEBUG", "true")]⟩ : Profile)
        else none) "dev"
      = some ⟨"dev", [("DATABASE_URL", "db://x"), ("DEBUG", "true")]⟩)
    ∧ (loadProfile
        (fun n => if n = "dev"
          then some ⟨"dev", [("DATABASE_URL", "db://x"), ("DEBUG", "true")]⟩ else none)
        none "dev"
      = Except.ok (generateLoadCommands "dev" [("DATABASE_URL", "db://x"), ("DEBUG", "true")])
    ∧ unloadProfile
        (fun n => if n = "dev"
          then some ⟨"dev", [("DATABASE_URL", "db://x"), ("DEBUG", "true")]⟩ else none)
          (execList (generateLoadCommands "dev" [("DATABASE_URL", "db://x"), ("DEBUG", "true")])
            ⟨fun k => if k = "DATABASE_URL" then some "old" else none, none⟩).backup
        = Except.ok
            ([("DATABASE_URL", "db://x"), ("DEBUG", "true")].map
                (fun kv => ShCmd.restoreOrUnset kv.1) ++ [ShCmd.removeBackup], "dev")
    ∧ (∀ k,
        (execList ([("DATABASE_URL", "db://x"), ("DEBUG", "true")].map
              (fun kv => ShCmd.restoreOrUnset kv.1) ++ [ShCmd.removeBackup])
            (execList (generateLoadCommands "dev" [("DATABASE_URL", "db://x"), ("DEBUG", "true")])
              ⟨fun k => if k = "DATABASE_URL" then some "old" else none, none⟩)).env k
          = (fun k => if k = "DATABASE_URL" then some "old" else none) k)
    ∧ (execList ([("DATABASE_URL", "db://x"), ("DEBUG", "true")].map
            (fun kv => ShCmd.restoreOrUnset kv.1) ++ [ShCmd.removeBackup])
          (execList (generateLoadCommands "dev" [("DATABASE_URL", "db://x"), ("DEBUG", "true")])
            ⟨fun k => if k = "DATABASE_URL" then some "old" else none, none⟩)).backup = none) :=
  ⟨by decide,
   round_trip_restores_env
     (fun n => if n = "dev"
       then some ⟨"dev", [("DATABASE_URL", "db://x"), ("DEBUG", "true")]⟩ else none)
     "dev" [("DATABASE_URL", "db://x"), ("DEBUG", "true")]
     (fun k => if k = "DATABASE_URL" then some "old" else none)
     (by decide) (by decide) (by decide) (by decide) (by decide) (by decide) (by decide)⟩

/-- C2 (counterexample): the backup file written by loading the spec's
`dev` profile over an environment with `DATABASE_URL=old` and `DEBUG`
unset does not carry the spec's literal first line `# profile:dev` — the
code writes `# envctl-profile:dev`. -/
theorem backup_marker_differs_from_spec :
    (execList (generateLoadCommands "dev" [("DATABASE_URL", "db://x"), ("DEBUG", "true")])
        ⟨fun k => if k = "DATABASE_URL" then some "old" else none, none⟩).backup.map fileContent
      ≠ some "# profile:dev\nDATABASE_URL=old\n" := by
  decide

/-- C2 (amended): the backup file written by a fresh load consists of the
first line `# envctl-profile:NAME` followed by one `KEY=VALUE` line per
profile variable with a pre-existing value, in profile order; at the spec's
`dev` scenario its byte content is exactly
`# envctl-profile:dev\nDATABASE_URL=old\n`. -/
theorem backup_file_format :
    (∀ (profileName : String) (vars : List (String × String)) (E : String → Option String),
      (execList (generateLoadCommands profileName vars) ⟨E, none⟩).backup
        = some (markerLine profileName :: backupAppends E vars))
    ∧ (execList (generateLoadCommands "dev" [("DATABASE_URL", "db://x"), ("DEBUG", "true")])
        ⟨fun k => if k = "DATABASE_URL" then some "old" else none, none⟩).backup.map fileContent
      = some "# envctl-profile:dev\nDATABASE_URL=old\n" :=
  ⟨fun profileName vars E => load_backup profileName vars E, by decide⟩

/-- C3 (counterexample): with profile `dev` loaded in a different session
(its backup file carries the `dev` marker) and the current session empty,
`deleteProfile dev` succeeds instead of failing: the check only consults
the current session's backup file. -/
theorem delete_ignores_other_sessions :
    getCurrentlyLoadedProfile
        ((fun sid => if sid = "777-1-xterm" then some ["# envctl-profile:dev"] else none)
          "777-1-xterm")
      = some "dev"
    ∧ (deleteProfile (fun n => if n = "dev" then some ⟨"dev", [("A", "1")]⟩ else none)
        ((fun sid => if sid = "777-1-xterm" then some ["# envctl-profile:dev"] else none)
          "999-1-xterm") "dev").isOk
      = true := by
  refine ⟨by decide, by decide⟩

/-- C3 (amended): `deleteProfile n` fails with the profile-loaded-deletion
error exactly when `n` is the profile loaded in the session issuing the
delete; the error return carries no updated store, so the stored entity is
unchanged. -/
theorem delete_blocked_by_current_session
    (profiles : String → Option Profile) (backup : Option (List String)) (n : String)
    (hcur : getCurrentlyLoadedProfile backup = some n) :
    deleteProfile profiles backup n
      = Except.error ("Cannot delete profile '" ++ n ++ "' while it is loaded. Unload it first.") := by
  simp [deleteProfile, hcur]

/-- C3 (witness): the amended deletion guard at a concrete loaded session. -/
theorem delete_blocked_by_current_session_witness :
    getCurrentlyLoadedProfile (some ["# envctl-profile:dev", "A=1"]) = some "dev"
    ∧ deleteProfile (fun n => if n = "dev" then some ⟨"dev", [("A", "1")]⟩ else none)
        (some ["# envctl-profile:dev", "A=1"]) "dev"
      = Except.error "Cannot delete profile 'dev' while it is loaded. Unload it first." :=
  ⟨by decide,
   delete_blocked_by_current_session
     (fun n => if n = "dev" then some ⟨"dev", [("A", "1")]⟩ else none)
     (some ["# envctl-profile:dev", "A=1"]) "dev" (by decide)⟩

/-- C6: loading an existing profile `t` while a different profile `o` is
the session's loaded profile fails with the already-loaded error naming `o`
and suggesting `envctl switch t`; no script is returned (and, the model
being pure, the backup file is untouched). -/
theorem conflicting_load_errors
    (profiles : String → Option Profile) (backup : Option (List String))
    (t o : String) (p : Profile)
    (hp : profiles t = some p)
    (hcur : getCurrentlyLoadedProfile backup = some o)
    (hne : o ≠ t) (hno : o.isEmpty = false) :
    loadProfile profiles backup t
      = Except.error ("Profile '" ++ o ++ "' is already loaded. Use 'envctl switch "
          ++ t ++ "' to switch profiles.") := by
  simp [loadProfile, hp, hcur, hne, hno]

/-- C6 (witness): the spec's conflicting-load scenario, `dev` loaded and
`staging` requested. -/
theorem conflicting_load_errors_witness :
    getCurrentlyLoadedProfile (some ["# envctl-profile:dev", "DATABASE_URL=old"]) = some "dev"
    ∧ loadProfile (fun n => if n = "staging" then some ⟨"staging", [("A", "1")]⟩ else none)
        (some ["# envctl-profile:dev", "DATABASE_URL=old"]) "staging"
      = Except.error "Profile 'dev' is already loaded. Use 'envctl switch staging' to switch profiles." :=
  ⟨by decide,
   conflicting_load_errors
     (fun n => if n = "staging" then some ⟨"staging", [("A", "1")]⟩ else none)
     (some ["# envctl-profile:dev", "DATABASE_URL=old"]) "staging" "dev"
     ⟨"staging", [("A", "1")]⟩ (by decide) (by decide) (by decide) (by decide)⟩

/-- C7: when the session's backup file exists but its first line is not a
profile marker, `unloadProfile` succeeds, reports the name `unknown`, and
the returned script is exactly the backup removal — evaluating it changes
no environment key. -/
theorem unknown_marker_unload_removes_only
    (profiles : String → Option Profile) (lines : List String)
    (hnm : strStartsWith (strTrim (lines.headD "")) markerText = false) :
    unloadProfile profiles (some lines) = Except.ok ([ShCmd.removeBackup], "unknown")
    ∧ ∀ (st : ShellState) (k : String),
        (execList [ShCmd.removeBackup] st).env k = st.env k := by
  have hnm2 : strStartsWith (strTrim (lines.head?.getD "")) markerText = false := by
    simpa using hnm
  have hcur : getCurrentlyLoadedProfile (some lines) = some "unknown" := by
    simp [getCurrentlyLoadedProfile, hnm2]
  refine ⟨?_, fun st k => rfl⟩
  simp only [unloadProfile, hcur]
  rw [if_neg (by decide)]
  simp

/-- C7 (witness): the spec's unknown-marker scenario, a backup file holding
only `SOME=val`. -/
theorem unknown_marker_unload_removes_only_witness :
    strStartsWith (strTrim ((["SOME=val"] : List String).headD "")) markerText = false
    ∧ (unloadProfile (fun _ => none) (some ["SOME=val"])
        = Except.ok ([ShCmd.removeBackup], "unknown")
      ∧ ∀ (st : ShellState) (k : String),
          (execList [ShCmd.removeBackup] st).env k = st.env k) :=
  ⟨by decide, unknown_marker_unload_removes_only (fun _ => none) ["SOME=val"] (by decide)⟩

/-- C9: with a marker-less backup file present, loading an existing profile
`t` other than `unknown` fails with the already-loaded error naming
`unknown`, while a profile literally named `unknown` is dispatched to the
reload path. -/
theorem markerless_backup_blocks_load
    (profiles : String → Option Profile) (lines : List String) (t : String) (p : Profile)
    (hnm : strStartsWith (strTrim (lines.headD "")) markerText = false)
    (hp : profiles t = some p) :
    (t ≠ "unknown" →
      loadProfile profiles (some lines) t
        = Except.error ("Profile 'unknown' is already loaded. Use 'envctl switch "
            ++ t ++ "' to switch profiles."))
    ∧ (t = "unknown" →
      loadProfile profiles (some lines) t = Except.ok (reloadCurrentProfile t p.vars)) := by
  have hnm2 : strStartsWith (strTrim (lines.head?.getD "")) markerText = false := by
    simpa using hnm
  have hcur : getCurrentlyLoadedProfile (some lines) = some "unknown" := by
    simp [getCurrentlyLoadedProfile, hnm2]
  constructor
  · intro ht
    have hne : ¬ (("unknown" : String) = t) := fun he => ht he.symm
    simp only [loadProfile, hp, hcur]
    rw [if_neg hne, if_neg (by decide)]
    rfl
  · intro ht
    subst ht
    simp [loadProfile, hp, hcur]

/-- C9 (witness): a corrupted backup file blocks loading `dev` and lets a
profile named `unknown` reload. -/
theorem markerless_backup_blocks_load_witness :
    strStartsWith (strTrim ((["SOME=val"] : List String).headD "")) markerText = false
    ∧ ((fun n => if n = "dev" then some (⟨"dev", [("A", "1")]⟩ : Profile) else none) "dev"
        = some ⟨"dev", [("A", "1")]⟩)
    ∧ (("dev" : String) ≠ "unknown" →
        loadProfile (fun n => if n = "dev" then some ⟨"dev", [("A", "1")]⟩ else none)
            (some ["SOME=val"]) "dev"
          = Except.error "Profile 'unknown' is already loaded. Use 'envctl switch dev' to switch profiles.")
    ∧ (("dev" : String) = "unknown" →
        loadProfile (fun n => if n = "dev" then some ⟨"dev", [("A", "1")]⟩ else none)
            (some ["SOME=val"]) "dev"
          = Except.ok (reloadCurrentProfile "dev" [("A", "1")])) :=
  ⟨by decide, by decide,
   (markerless_backup_blocks_load
     (fun n => if n = "dev" then some ⟨"dev", [("A", "1")]⟩ else none)
     ["SOME=val"] "dev" ⟨"dev", [("A", "1")]⟩ (by decide) (by decide)).1,
   (markerless_backup_blocks_load
     (fun n => if n = "dev" then some ⟨"dev", [("A", "1")]⟩ else none)
     ["SOME=val"] "dev" ⟨"dev", [("A", "1")]⟩ (by decide) (by decide)).2⟩

/-- C10: when the session's backup file carries a marker naming `p` but no
stored profile `p` exists, `unloadProfile` fails with the not-found error
naming `p`; the error return carries no script, so nothing is restored and
the backup file stays (the session remains loaded). -/
theorem unload_missing_profile_errors
    (profiles : String → Option Profile) (backup : Option (List String)) (p : String)
    (hcur : getCurrentlyLoadedProfile backup = some p)
    (hpu : p ≠ "unknown") (hpe : p.isEmpty = false)
    (hmissing : profiles p = none) :
    unloadProfile profiles backup = Except.error ("Profile '" ++ p ++ "' not found") := by
  simp [unloadProfile, hcur, hpu, hpe, hmissing]

/-- C5: a second `load` of the profile already loaded in the session
dispatches to the reload path, and evaluating the reload script leaves the
environment and the backup file content identical to the state the single
fresh load produced. -/
theorem reload_idempotent
    (profiles : String → Option Profile) (nm : String)
    (vars : List (String × String)) (E : String → Option String)
    (hprof : profiles nm = some ⟨nm, vars⟩)
    (hident : ∀ p ∈ vars, isIdentKey p.1 = true)
    (hnodup : (vars.map Prod.fst).Nodup)
    (hnw : ∀ c ∈ nm.toList, c.isWhitespace = false) :
    loadProfile profiles
        (execList (generateLoadCommands nm vars) ⟨E, none⟩).backup nm
      = Except.ok (reloadCurrentProfile nm vars)
    ∧ (∀ k, (execList (reloadCurrentProfile nm vars)
          (execList (generateLoadCommands nm vars) ⟨E, none⟩)).env k
        = (execList (generateLoadCommands nm vars) ⟨E, none⟩).env k)
    ∧ (execList (reloadCurrentProfile nm vars)
          (execList (generateLoadCommands nm vars) ⟨E, none⟩)).backup
      = (execList (generateLoadCommands nm vars) ⟨E, none⟩).backup := by
  have hb := load_backup nm vars E
  have hcur : getCurrentlyLoadedProfile
      (execList (generateLoadCommands nm vars) ⟨E, none⟩).backup = some nm := by
    rw [hb]
    exact getCurrentlyLoadedProfile_marker nm _ hnw
  have hXk : ∀ k, (execCmd (execList (vars.map fun kv => ShCmd.restoreOrUnset kv.1)
      (execList (generateLoadCommands nm vars) ⟨E, none⟩)) (ShCmd.writeMarker nm)).env k
        = E k :=
    fun k => restores_after_load_env nm vars E k hident hnodup
  have hXenv : ∀ p : String × String, p ∈ vars →
      (execCmd (execList (vars.map fun kv => ShCmd.restoreOrUnset kv.1)
        (execList (generateLoadCommands nm vars) ⟨E, none⟩)) (ShCmd.writeMarker nm)).env p.1
          = E p.1 :=
    fun p _ => hXk p.1
  refine ⟨?_, ?_, ?_⟩
  · simp [loadProfile, hprof, hcur]
  · intro k
    unfold reloadCurrentProfile
    rw [execList_append, execList_cons, execList_append,
        exec_condBackups vars _ [markerLine nm] rfl,
        exec_exports_env vars _ k hnodup]
    dsimp only
    rw [hXk k, load_env nm vars E k hnodup]
  · unfold reloadCurrentProfile
    rw [execList_append, execList_cons, execList_append,
        exec_condBackups vars _ [markerLine nm] rfl, exec_exports_backup]
    dsimp only
    rw [backupAppends_congr _ E vars hXenv, hb]
    rfl

/-- C5 (witness): reload idempotence at the spec's `dev` scenario. -/
theorem reload_idempotent_witness :
    ((fun n => if n = "dev"
        then some (⟨"dev", [("DATABASE_URL", "db://x"), ("DEBUG", "true")]⟩ : Profile)
        else none) "dev"
      = some ⟨"dev", [("DATABASE_URL", "db://x"), ("DEBUG", "true")]⟩)
    ∧ (loadProfile
        (fun n => if n = "dev"
          then some ⟨"dev", [("DATABASE_URL", "db://x"), ("DEBUG", "true")]⟩ else none)
        (execList (generateLoadCommands "dev" [("DATABASE_URL", "db://x"), ("DEBUG", "true")])
          ⟨fun k => if k = "DATABASE_URL" then some "old" else none, none⟩).backup "dev"
      = Except.ok (reloadCurrentProfile "dev" [("DATABASE_URL", "db://x"), ("DEBUG", "true")])
    ∧ (∀ k, (execList (reloadCurrentProfile "dev" [("DATABASE_URL", "db://x"), ("DEBUG", "true")])
          (execList (generateLoadCommands "dev" [("DATABASE_URL", "db://x"), ("DEBUG", "true")])
            ⟨fun k => if k = "DATABASE_URL" then some "old" else none, none⟩)).env k
        = (execList (generateLoadCommands "dev" [("DATABASE_URL", "db://x"), ("DEBUG", "true")])
            ⟨fun k => if k = "DATABASE_URL" then some "old" else none, none⟩).env k)
    ∧ (execList (reloadCurrentProfile "dev" [("DATABASE_URL", "db://x"), ("DEBUG", "true")])
          (execList (generateLoadCommands "dev" [("DATABASE_URL", "db://x"), ("DEBUG", "true")])
            ⟨fun k => if k = "DATABASE_URL" then some "old" else none, none⟩)).backup
      = (execList (generateLoadCommands "dev" [("DATABASE_URL", "db://x"), ("DEBUG", "true")])
            ⟨fun k => if k = "DATABASE_URL" then some "old" else none, none⟩).backup) :=
  ⟨by decide,
   reload_idempotent
     (fun n => if n = "dev"
       then some ⟨"dev", [("DATABASE_URL", "db://x"), ("DEBUG", "true")]⟩ else none)
     "dev" [("DATABASE_URL", "db://x"), ("DEBUG", "true")]
     (fun k => if k = "DATABASE_URL" then some "old" else none)
     (by decide) (by decide) (by decide) (by decide)⟩

/-- The configuration directory segment folds onto the backup prefix. -/
theorem envctl_dir_fold (r : String) :
    ("/.envctl/" : String) ++ ("backup-" ++ r) = "/.envctl/backup-" ++ r := by
  rw [← String.append_assoc]
  have h : ("/.envctl/" : String) ++ "backup-" = "/.envctl/backup-" := rfl
  rw [h]

/-- C4: for any `HOME`, any pid and any terminal environment visible to
both sides, the backup path the emitted shell expression evaluates to (with
the shell pid standing for the generator's parent pid) equals the path the
Node side computes from its session id.  The shell-literal hypotheses keep
the shell-side evaluation model honest: such values expand verbatim. -/
theorem session_backup_path_agreement (home : String) (pid : Nat) (e : SessEnv)
    (htp : ∀ s, e.termProgram = some s → shellLiteralValue s = true)
    (hssh : ∀ s, e.sshTty = some s → shellLiteralValue s = true)
    (hterm : ∀ s, e.term = some s → shellLiteralValue s = true)
    (hshlvl : ∀ s, e.shlvl = some s → shellLiteralValue s = true) :
    getSessionBackupPathSh home pid e = sessionBackupFilePath home pid e := by
  unfold getSessionBackupPathSh sessionBackupFilePath getSessionId
  by_cases h1 : envSet e.termProgram = true
  · simp only [h1, if_true]
    simp [String.append_assoc, envctl_dir_fold]
  · simp only [h1, if_false, Bool.false_eq_true]
    by_cases h2 : envSet e.sshTty = true
    · simp only [h2, if_true]
      simp [String.append_assoc, envctl_dir_fold]
    · simp only [h2, if_false, Bool.false_eq_true]
      by_cases h3 : envSet e.term = true
      · simp only [h3, if_true]
        simp [String.append_assoc, envctl_dir_fold]
      · simp only [h3, if_false, Bool.false_eq_true]
        by_cases h4 : shlvlOrDefault e = "2"
        · simp only [h4, if_true]
          simp [String.append_assoc, envctl_dir_fold, h4]
        · simp only [h4, if_false]
          simp [String.append_assoc, envctl_dir_fold, h4]

/-- C4 (witness): agreement in a plain `xterm-256color` terminal at shell
level 2. -/
theorem session_backup_path_agreement_witness :
    ((⟨none, none, some "xterm-256color", some "2"⟩ : SessEnv).term = some "xterm-256color"
      → shellLiteralValue "xterm-256color" = true)
    ∧ getSessionBackupPathSh "/root" 42 ⟨none, none, some "xterm-256color", some "2"⟩
      = sessionBackupFilePath "/root" 42 ⟨none, none, some "xterm-256color", some "2"⟩ :=
  ⟨fun _ => by decide,
   session_backup_path_agreement "/root" 42 ⟨none, none, some "xterm-256color", some "2"⟩
     (by intro s hs; cases hs) (by intro s hs; cases hs)
     (by intro s hs; cases hs; decide) (by intro s hs; cases hs; decide)⟩

/-- C8 (counterexample): a foreign, six-minute-old backup file whose
session id has an unparseable pid component is deleted by the reaper even
when the liveness probe succeeds for every pid — the claim says such a file
is never removed. -/
theorem reaper_removes_unparseable_pid_file :
    backupFileSessionId "backup-host-1.env" = "host-1"
    ∧ isSessionActive (fun _ => true) "host-1" = false
    ∧ reaperRemoves "999-1" (fun _ => true) 600000 "backup-host-1.env" (some 0) = true := by
  refine ⟨by decide, by decide, by decide⟩

/-- C8 (amended): the reaper deletes a file exactly when its name has the
`backup-*.env` shape, its session id differs from the current one, its age
is known and at least the five-minute grace window, and the session is
judged inactive — where the session is judged inactive either because the
zero-signal probe of the parsed pid fails or because the pid component does
not parse at all. -/
theorem reaper_removal_iff (currentId : String) (alive : Int → Bool) (now : Int)
    (fileName : String) (mtime : Option Int) :
    reaperRemoves currentId alive now fileName mtime = true
      ↔ (strStartsWith fileName "backup-" = true ∧ strEndsWith fileName ".env" = true
          ∧ backupFileSessionId fileName ≠ currentId
          ∧ (∃ m, mtime = some m ∧ fiveMinutes ≤ now - m)
          ∧ (∀ pid, jsParseInt ((strSplitChar (backupFileSessionId fileName) '-').headD "")
                = some pid → alive pid = false)) := by
  unfold reaperRemoves isSessionActive
  by_cases h1 : strStartsWith fileName "backup-" = true
  case neg => simp [h1]
  by_cases h2 : strEndsWith fileName ".env" = true
  case neg => simp [h1, h2]
  by_cases h3 : backupFileSessionId fileName = currentId
  case pos => simp [h1, h2, h3]
  cases mtime with
  | none => simp [h1, h2, h3]
  | some m =>
    by_cases h4 : now - m < fiveMinutes
    · have hnle : ¬ fiveMinutes ≤ now - m := not_le.mpr h4
      simp [h1, h2, h3, h4, hnle]
    · have hle : fiveMinutes ≤ now - m := not_lt.mp h4
      cases h5 : jsParseInt ((strSplitChar (backupFileSessionId fileName) '-').head?.getD "") with
      | none => simp [h1, h2, h3, h4, h5, hle]
      | some pid => simp [h1, h2, h3, h4, h5, hle]

/-- C10 (witness): a backup marked `ghost` with no stored `ghost` entity. -/
theorem unload_missing_profile_errors_witness :
    getCurrentlyLoadedProfile (some ["# envctl-profile:ghost"]) = some "ghost"
    ∧ unloadProfile (fun _ => none) (some ["# envctl-profile:ghost"])
      = Except.error "Profile 'ghost' not found" :=
  ⟨by decide,
   unload_missing_profile_errors (fun _ => none) (some ["# envctl-profile:ghost"]) "ghost"
     (by decide) (by decide) (by decide) rfl⟩

end Envctl
